import Mathlib

/-!
Shallow embedding of `src/tools/privexctl.c` (privcount/privcount).

The program is a single-threaded TCP relay with two modes: `load` reads
newline-delimited records from stdin and sends them to 127.0.0.1:port
(`load` → `tell_privex` → `setup_privex_client`), `dump` waits for
readability and copies socket bytes to stdout
(`dump` → `echo_data` → `setup_privex_server`).

Modelling conventions:
* The two global descriptors `privex_sockfd` and `privex_epollfd` become the
  `HandleState` structure; file descriptors are `Int` (negative = invalid),
  exactly as the C code tests them (`fd < 0`).
* Kernel / libc behaviour that is outside the program (results of `socket`,
  `connect`, `epoll_create`, `epoll_ctl`, `epoll_wait`, `write`, `read`,
  `fwrite`, `getline`) is supplied by explicit environment values and event
  traces.  One exception is kernel-determined: `epoll_wait` on a negative
  descriptor always fails with `EBADF`, which the `dump` model encodes
  directly (the event trace is consulted only when the epoll descriptor is
  valid).
* `write(fd, p, n)` never reports more bytes than requested, so a write
  event carries the number of bytes the kernel would accept and the model
  caps it at the requested count.
* Byte buffers are `List Nat`.
* Loops are driven by finite event traces; exhausting the trace while a
  loop is still spinning is reported as `stuck` / `hang` (the real loop
  would still be running), distinct from returning a value.
* `echo_data` in the C source has control paths that reach the end of the
  `int` function without a `return` statement; the model gives those paths
  the explicit status `EchoStatus.unspecified` (the value the caller sees
  is indeterminate).
-/

namespace Privexctl

/-- `EXIT_SUCCESS` from stdlib.h. -/
def EXIT_SUCCESS : Int := 0

/-- `EXIT_FAILURE` from stdlib.h. -/
def EXIT_FAILURE : Int := 1

/-- The pair of process-wide descriptors: `privex_sockfd` and
`privex_epollfd` (privexctl.c lines 24, 26).  A descriptor is valid iff it
is nonnegative, exactly as the C code tests it. -/
structure HandleState where
  sockfd : Int
  epollfd : Int
deriving Repr, DecidableEq

/-- The initial global state: `privex_sockfd = -1`, `privex_epollfd = -1`
(privexctl.c lines 24, 26). -/
def initialState : HandleState := ⟨-1, -1⟩

/-- Both halves of the connection handle are invalid (negative). -/
def bothInvalid (s : HandleState) : Prop := s.sockfd < 0 ∧ s.epollfd < 0

/-- The handle invariant claimed by the spec: the two descriptors are
either both valid (both ≥ 0) or both invalid (both negative). -/
def handleInv (s : HandleState) : Prop :=
  (0 ≤ s.sockfd ∧ 0 ≤ s.epollfd) ∨ (s.sockfd < 0 ∧ s.epollfd < 0)

instance (s : HandleState) : Decidable (bothInvalid s) := by
  unfold bothInvalid; infer_instance

instance (s : HandleState) : Decidable (handleInv s) := by
  unfold handleInv; infer_instance

/-- Environment for one call of `setup_privex_client`: the results the
kernel gives to each syscall in the order the code makes them
(privexctl.c lines 28-84). -/
structure ClientSetupEnv where
  socketRes : Int
  inetPtonOk : Bool
  connectOk : Bool
  epollCreateRes : Int
  epollCtlOk : Bool
deriving Repr, DecidableEq

/-- `setup_privex_client` (privexctl.c lines 28-84).  Mirrors the C control
flow: `privex_sockfd = socket(...)`, check `< 0`; `inet_pton` check;
`connect` check (each failure closes the socket and resets it to −1);
`privex_epollfd = epoll_create(1)`, check `< 0` (resets only `sockfd`, the
epoll descriptor keeps the negative result); `epoll_ctl` check (failure
resets both).  Success leaves both descriptors at the kernel-returned
values. -/
def setup_privex_client (s : HandleState) (env : ClientSetupEnv) : HandleState × Int :=
  if env.socketRes < 0 then
    ({ s with sockfd := env.socketRes }, EXIT_FAILURE)
  else if !env.inetPtonOk then
    ({ s with sockfd := -1 }, EXIT_FAILURE)
  else if !env.connectOk then
    ({ s with sockfd := -1 }, EXIT_FAILURE)
  else if env.epollCreateRes < 0 then
    ({ s with sockfd := -1, epollfd := env.epollCreateRes }, EXIT_FAILURE)
  else if !env.epollCtlOk then
    ({ s with sockfd := -1, epollfd := -1 }, EXIT_FAILURE)
  else
    ({ s with sockfd := env.socketRes, epollfd := env.epollCreateRes }, EXIT_SUCCESS)

/-- Environment for one call of `setup_privex_server`
(privexctl.c lines 153-213). -/
structure ServerSetupEnv where
  socketRes : Int
  bindOk : Bool
  listenOk : Bool
  epollCreateRes : Int
  epollCtlOk : Bool
deriving Repr, DecidableEq

/-- `setup_privex_server` (privexctl.c lines 153-213): `socket`, `bind`,
`listen`, `epoll_create`, `epoll_ctl`, with the same teardown discipline as
the client variant (each failure closes what was opened in this call;
the `epoll_create` failure path leaves the negative `epoll_create` result
in `privex_epollfd`). -/
def setup_privex_server (s : HandleState) (env : ServerSetupEnv) : HandleState × Int :=
  if env.socketRes < 0 then
    ({ s with sockfd := env.socketRes }, EXIT_FAILURE)
  else if !env.bindOk then
    ({ s with sockfd := -1 }, EXIT_FAILURE)
  else if !env.listenOk then
    ({ s with sockfd := -1 }, EXIT_FAILURE)
  else if env.epollCreateRes < 0 then
    ({ s with sockfd := -1, epollfd := env.epollCreateRes }, EXIT_FAILURE)
  else if !env.epollCtlOk then
    ({ s with sockfd := -1, epollfd := -1 }, EXIT_FAILURE)
  else
    ({ s with sockfd := env.socketRes, epollfd := env.epollCreateRes }, EXIT_SUCCESS)

/-- One iteration of the environment as seen by the send loop in
`tell_privex` (privexctl.c lines 99-128): the outcome of the
`epoll_wait` call and, when it reports readiness, the outcome of the
`write` call. -/
inductive ClientEvent where
  /-- `epoll_wait` returned −1. -/
  | waitErr
  /-- `epoll_wait` returned 0 ready descriptors: the loop body is skipped. -/
  | spurious
  /-- `epoll_wait` reported readiness and `write` returned −1. -/
  | writeErr
  /-- `epoll_wait` reported readiness and `write` accepted bytes;
  `accepted` is how many bytes the kernel takes of the request (the model
  caps it at the requested count, since `write` never returns more than
  it was asked to write). -/
  | writeOk (accepted : Nat)
deriving Repr, DecidableEq

/-- `remaining -= (size_t)written` (privexctl.c line 126), where
`written = write(fd, buf, remaining)` is at most `remaining`. -/
def stepRemaining (remaining accepted : Nat) : Nat :=
  remaining - min accepted remaining

/-- The send loop of `tell_privex` (privexctl.c lines 96-130), driven by a
finite event trace.  The loop runs while `remaining > 0`; each `write`
writes from offset `sendBuffLen - remaining` (line 116).  On success the
result carries the list of chunks actually written to the socket, in
order; `epoll_wait` or `write` errors close both descriptors (lines
105-112, 117-124) and fail; an exhausted trace with bytes still pending is
`stuck` (the real loop would still be running). -/
inductive SendResult where
  | success (chunks : List (List Nat))
  | failure
  | stuck
deriving Repr, DecidableEq

def sendLoop (s : HandleState) (buff : List Nat) :
    Nat → List ClientEvent → HandleState × SendResult
  | 0, _ => (s, .success [])
  | _ + 1, [] => (s, .stuck)
  | _ + 1, .waitErr :: _ => (⟨-1, -1⟩, .failure)
  | r + 1, .spurious :: rest => sendLoop s buff (r + 1) rest
  | _ + 1, .writeErr :: _ => (⟨-1, -1⟩, .failure)
  | r + 1, .writeOk accepted :: rest =>
    match sendLoop s buff (stepRemaining (r + 1) accepted) rest with
    | (s1, .success chunks) =>
      (s1, .success (((buff.drop (buff.length - (r + 1))).take (min accepted (r + 1))) :: chunks))
    | other => other

/-- `tell_privex` (privexctl.c lines 86-131).  If either descriptor is
invalid it first runs `setup_privex_client` (lines 89-94), failing the
whole send if setup fails; otherwise it runs the send loop over the whole
buffer.  The `Bool` records whether a connection attempt (a call of
`setup_privex_client`) was made. -/
def tell_privex (s : HandleState) (env : ClientSetupEnv) (buff : List Nat)
    (events : List ClientEvent) : HandleState × SendResult × Bool :=
  if s.sockfd < 0 ∨ s.epollfd < 0 then
    if (setup_privex_client s env).2 ≠ EXIT_SUCCESS then
      ((setup_privex_client s env).1, .failure, true)
    else
      ((sendLoop (setup_privex_client s env).1 buff buff.length events).1,
        (sendLoop (setup_privex_client s env).1 buff buff.length events).2, true)
  else
    ((sendLoop s buff buff.length events).1,
      (sendLoop s buff buff.length events).2, false)

/-- Result of the `read(privex_sockfd, readBuff, 8192)` call in
`echo_data` (privexctl.c line 226). -/
inductive ReadResult where
  /-- `read` returned −1. -/
  | readErr
  /-- `read` returned `bytes.length` (≤ 8192) bytes. -/
  | readOk (bytes : List Nat)
deriving Repr, DecidableEq

/-- Environment for one call of `echo_data`: the server-setup syscall
results (used only when the handle is invalid), the result of the socket
`read`, and whether `stdout` accepts all bytes handed to `fwrite`. -/
structure EchoEnv where
  setup : ServerSetupEnv
  readRes : ReadResult
  fwriteOk : Bool
deriving Repr, DecidableEq

/-- Status returned by `echo_data`.  The C function is declared `int` but
two control paths (read of 0 bytes; a write the code's check accepts)
reach the closing brace without a `return` statement, so the value the
caller receives on those paths is indeterminate: the model marks them
`unspecified`. -/
inductive EchoStatus where
  | failure
  | unspecified
deriving Repr, DecidableEq

/-- `fwrite(readBuff, numRead, 1, stdout)` (privexctl.c line 237): one
item of `numRead` bytes, so the returned count of complete items written
is 1 when stdout accepts all `numRead` bytes and 0 otherwise. -/
def fwriteItems (numRead : Nat) (acceptedAll : Bool) : Nat :=
  if acceptedAll then 1 else 0

/-- The body of `echo_data` after the lazy-setup check (privexctl.c lines
223-247): one socket `read`; −1 tears down both descriptors and fails;
`numRead > 0` forwards via `fwrite` and compares the byte count `numRead`
with `fwrite`'s item count (line 238), tearing down and failing on
mismatch; the remaining paths fall off the end of the function
(`unspecified` status).  The third component is the list of bytes fully
forwarded to stdout (a failed `fwrite` delivers an unspecified prefix,
which the model does not observe). -/
def echoBody (s : HandleState) (env : EchoEnv) : HandleState × EchoStatus × List Nat :=
  match env.readRes with
  | .readErr => (⟨-1, -1⟩, .failure, [])
  | .readOk bytes =>
    if 0 < bytes.length then
      if bytes.length ≠ fwriteItems bytes.length env.fwriteOk then
        (⟨-1, -1⟩, .failure, [])
      else
        (s, .unspecified, bytes)
    else
      (s, .unspecified, [])

/-- `echo_data` (privexctl.c lines 215-247): if either descriptor is
invalid, run `setup_privex_server` first (lines 216-221), failing if setup
fails; then the read/forward body. -/
def echo_data (s : HandleState) (env : EchoEnv) : HandleState × EchoStatus × List Nat :=
  if s.sockfd < 0 ∨ s.epollfd < 0 then
    if (setup_privex_server s env.setup).2 ≠ EXIT_SUCCESS then
      ((setup_privex_server s env.setup).1, .failure, [])
    else echoBody (setup_privex_server s env.setup).1 env
  else echoBody s env

/-- Result of running a top-level loop (`load` or `dump`) over a finite
event trace. -/
inductive RunResult where
  /-- The function returned this exit code. -/
  | done (code : Int)
  /-- The modelled event trace ran out while the loop was still spinning:
  the real loop would still be running. -/
  | hang
  /-- Control reached a test of an indeterminate value (the missing
  `return` in `echo_data`), so the subsequent behaviour is unspecified. -/
  | undef
deriving Repr, DecidableEq

/-- One iteration of the environment as seen by the `dump` loop
(privexctl.c lines 256-274), consulted only when `privex_epollfd` is a
valid descriptor (on an invalid one `epoll_wait` fails with `EBADF`
regardless of the environment). -/
inductive DumpEvent where
  /-- `epoll_wait` returned −1. -/
  | waitErr
  /-- `epoll_wait` returned 0 ready descriptors. -/
  | spurious
  /-- `epoll_wait` reported readiness; `echo_data` runs with this
  environment. -/
  | ready (env : EchoEnv)
deriving Repr, DecidableEq

/-- The `dump` loop (privexctl.c lines 249-278).  Each iteration first
calls `epoll_wait(privex_epollfd, ...)`: when `privex_epollfd` is
negative this fails with `EBADF` (so `dump` returns `EXIT_FAILURE`, line
263-266, without consulting the event trace); otherwise the trace decides
the outcome.  On readiness, `echo_data` runs and any status other than
`EXIT_SUCCESS` aborts the loop (lines 270-272); since `echo_data` never
explicitly returns `EXIT_SUCCESS`, its fall-off-the-end status makes the
test's outcome indeterminate (`undef`).  The `Nat` counts `echo_data`
invocations. -/
def dumpLoop (s : HandleState) (events : List DumpEvent) : HandleState × RunResult × Nat :=
  if s.epollfd < 0 then (s, .done EXIT_FAILURE, 0)
  else
    match events with
    | [] => (s, .hang, 0)
    | .waitErr :: _ => (s, .done EXIT_FAILURE, 0)
    | .spurious :: rest => dumpLoop s rest
    | .ready env :: _ =>
      match echo_data s env with
      | (s1, .failure, _) => (s1, .done EXIT_FAILURE, 1)
      | (s1, .unspecified, _) => (s1, .undef, 1)

/-- Per-record environment for `load`: the syscall results `tell_privex`
will consume for this record. -/
structure RecordEnv where
  setup : ClientSetupEnv
  events : List ClientEvent
deriving Repr, DecidableEq

/-- One result of `getline(&line, &len, stdin)` (privexctl.c line 141).
`getline` returns −1 both at end of file and on a read error; the code
only compares the result with −1, so the two terminations are bundled as
distinct constructors that the program cannot tell apart. -/
inductive GetlineResult where
  /-- `getline` returned a record of `bytes.length` bytes. -/
  | record (bytes : List Nat) (env : RecordEnv)
  /-- `getline` returned −1 because the input reached end of file. -/
  | endEof
  /-- `getline` returned −1 because of a read error on the input stream. -/
  | endError
deriving Repr, DecidableEq

/-- `load` (privexctl.c lines 133-151): repeatedly `getline`, and while it
yields records and `result == EXIT_SUCCESS`, call `tell_privex` on the
record.  Stops at the first −1 from `getline` (EOF or input read error —
indistinguishable to the code) with the current `result`, or at the first
`tell_privex` failure with `EXIT_FAILURE`.  The `Nat` counts connection
attempts (calls of `setup_privex_client`). -/
def load (s : HandleState) : List GetlineResult → HandleState × RunResult × Nat
  | [] => (s, .done EXIT_SUCCESS, 0)
  | .endEof :: _ => (s, .done EXIT_SUCCESS, 0)
  | .endError :: _ => (s, .done EXIT_SUCCESS, 0)
  | .record bytes env :: rest =>
    match tell_privex s env.setup bytes env.events with
    | (s1, .success _, att) =>
      match load s1 rest with
      | (s2, r, n) => (s2, r, (if att then 1 else 0) + n)
    | (s1, .failure, att) => (s1, .done EXIT_FAILURE, if att then 1 else 0)
    | (s1, .stuck, att) => (s1, .hang, if att then 1 else 0)

/-- `tolower` on an ASCII character (used by `strncasecmp`). -/
def tolowerC (c : Char) : Char :=
  if 'A' ≤ c ∧ c ≤ 'Z' then Char.ofNat (c.toNat + 32) else c

/-- `strncasecmp(a, b, n)`: compare at most `n` characters
case-insensitively; a list end plays the role of the terminating NUL of
the C string (the program's argument strings contain no embedded NUL). -/
def strncasecmp : List Char → List Char → Nat → Int
  | _, _, 0 => 0
  | [], [], _ + 1 => 0
  | [], b :: _, _ + 1 => 0 - ((tolowerC b).toNat : Int)
  | a :: _, [], _ + 1 => ((tolowerC a).toNat : Int)
  | a :: as, b :: bs, n + 1 =>
    if (tolowerC a).toNat = (tolowerC b).toNat then strncasecmp as bs n
    else ((tolowerC a).toNat : Int) - ((tolowerC b).toNat : Int)

/-- `isspace` on the characters relevant to `atoi` input. -/
def isSpaceC (c : Char) : Bool :=
  c = ' ' ∨ c = '\t' ∨ c = '\n' ∨ c = '\x0b' ∨ c = '\x0c' ∨ c = '\r'

/-- Accumulate decimal digits, stopping at the first non-digit
(the digit-consuming loop inside `atoi`). -/
def digitsVal : List Char → Nat → Nat
  | [], acc => acc
  | c :: cs, acc =>
    if c.isDigit then digitsVal cs (acc * 10 + (c.toNat - 48)) else acc

/-- The sign-and-digits part of `atoi`: an optional single sign followed
by decimal digits; no digits means 0. -/
def atoiTail : List Char → Int
  | [] => 0
  | c :: rest =>
    if c = '-' then 0 - (digitsVal rest 0 : Int)
    else if c = '+' then (digitsVal rest 0 : Int)
    else (digitsVal (c :: rest) 0 : Int)

/-- `atoi` (privexctl.c lines 282, 284): skip leading whitespace, an
optional sign, then decimal digits; no digits means 0.  The value is
modelled as a mathematical integer. -/
def atoi (s : String) : Int :=
  atoiTail (s.toList.dropWhile (fun c => isSpaceC c))

/-- The `(uint16_t)` cast applied to `privex_port` before `htons`
(privexctl.c lines 39 and 166): conversion of a C `int` to `uint16_t`
reduces the value modulo 2^16. -/
def toUint16 (x : Int) : Nat := (x % 65536).toNat

/-- The port actually placed in the socket address by both
`setup_privex_client` (line 39) and `setup_privex_server` (line 166):
`htons((uint16_t) privex_port)`.  `htons` only swaps byte order, so the
16-bit port value is `toUint16 privex_port`. -/
def effectivePort (privex_port : Int) : Nat := toUint16 privex_port

/-- The three-way dispatch in `main` (privexctl.c lines 280-289). -/
inductive Invocation where
  | dumpMode (port : Int)
  | loadMode (port : Int)
  | usage
deriving Repr, DecidableEq

/-- `main`'s argument dispatch (privexctl.c lines 281-288): with exactly
three arguments, `strncasecmp(argv[1], "dump", 4) == 0` selects dump mode
and otherwise `strncasecmp(argv[1], "load", 4) == 0` selects load mode,
each with port `atoi(argv[2])`; anything else prints usage and returns
`EXIT_FAILURE`. -/
def dispatch (argv : List String) : Invocation :=
  match argv with
  | [_, a1, a2] =>
    if strncasecmp a1.toList "dump".toList 4 = 0 then .dumpMode (atoi a2)
    else if strncasecmp a1.toList "load".toList 4 = 0 then .loadMode (atoi a2)
    else .usage
  | _ => .usage

/-- `main` (privexctl.c lines 280-289), threading the mode loops over
their event traces, starting from the initial global state.  The `Nat` is
the number of network-touching operations performed: connection attempts
in load mode, `echo_data` invocations in dump mode, and zero on the usage
path, which invokes neither loop. -/
def mainRun (argv : List String) (loadInput : List GetlineResult)
    (dumpEvents : List DumpEvent) : RunResult × Nat :=
  match dispatch argv with
  | .dumpMode _ =>
    match dumpLoop initialState dumpEvents with
    | (_, r, n) => (r, n)
  | .loadMode _ =>
    match load initialState loadInput with
    | (_, r, n) => (r, n)
  | .usage => (.done EXIT_FAILURE, 0)

/-- Case-insensitive match of the first four characters, the test `main`
applies to its mode token (`strncasecmp(argv[1], tok, 4) == 0`). -/
def tokenMatches (a t : String) : Prop := strncasecmp a.toList t.toList 4 = 0

instance (a t : String) : Decidable (tokenMatches a t) := by
  unfold tokenMatches; infer_instance

/-! ### Helper lemmas -/

lemma sendLoop_fst (s : HandleState) (buff : List Nat) :
    ∀ (events : List ClientEvent) (r : Nat),
      (sendLoop s buff r events).1 = s ∨ (sendLoop s buff r events).1 = ⟨-1, -1⟩ := by
  intro events
  induction events with
  | nil => intro r; cases r <;> simp [sendLoop]
  | cons e rest ih =>
    intro r
    cases r with
    | zero => simp [sendLoop]
    | succ m =>
      cases e with
      | waitErr => simp [sendLoop]
      | spurious => simpa [sendLoop] using ih (m + 1)
      | writeErr => simp [sendLoop]
      | writeOk a =>
        have hrec := ih (stepRemaining (m + 1) a)
        rcases h : sendLoop s buff (stepRemaining (m + 1) a) rest with ⟨s2, r2⟩
        rw [h] at hrec
        cases r2 <;> simp [sendLoop, h] <;> exact hrec

lemma sendLoop_success_flatten (s : HandleState) (buff : List Nat) :
    ∀ (events : List ClientEvent) (r : Nat) (s1 : HandleState) (chunks : List (List Nat)),
      r ≤ buff.length →
      sendLoop s buff r events = (s1, .success chunks) →
      chunks.flatten = buff.drop (buff.length - r) := by
  intro events
  induction events with
  | nil =>
    intro r s1 chunks hr h
    cases r with
    | zero =>
      simp [sendLoop] at h
      obtain ⟨rfl, rfl⟩ := h
      simp
    | succ m => simp [sendLoop] at h
  | cons e rest ih =>
    intro r s1 chunks hr h
    cases r with
    | zero =>
      simp [sendLoop] at h
      obtain ⟨rfl, rfl⟩ := h
      simp
    | succ m =>
      cases e with
      | waitErr => simp [sendLoop] at h
      | spurious => exact ih (m + 1) s1 chunks hr (by simpa [sendLoop] using h)
      | writeErr => simp [sendLoop] at h
      | writeOk a =>
        rcases hrec : sendLoop s buff (stepRemaining (m + 1) a) rest with ⟨s2, r2⟩
        cases r2 with
        | success chunks0 =>
          have hstep : stepRemaining (m + 1) a ≤ buff.length :=
            le_trans (Nat.sub_le _ _) hr
          have hih := ih (stepRemaining (m + 1) a) s2 chunks0 hstep hrec
          simp [sendLoop, hrec] at h
          rw [← h.2, List.flatten_cons, hih]
          have hw : min a (m + 1) ≤ m + 1 := Nat.min_le_right _ _
          have harith : buff.length - stepRemaining (m + 1) a =
              (buff.length - (m + 1)) + min a (m + 1) := by
            unfold stepRemaining; omega
          rw [harith, ← List.drop_drop, List.take_append_drop]
        | failure => simp [sendLoop, hrec] at h
        | stuck => simp [sendLoop, hrec] at h

lemma tell_privex_success_sendLoop (s : HandleState) (env : ClientSetupEnv)
    (buff : List Nat) (events : List ClientEvent) (s1 : HandleState)
    (chunks : List (List Nat)) (att : Bool)
    (h : tell_privex s env buff events = (s1, .success chunks, att)) :
    ∃ s0, sendLoop s0 buff buff.length events = (s1, .success chunks) := by
  unfold tell_privex at h
  split at h
  · split at h
    · simp at h
    · refine ⟨(setup_privex_client s env).1, ?_⟩
      rcases hloop : sendLoop (setup_privex_client s env).1 buff buff.length events
        with ⟨s3, r3⟩
      rw [hloop] at h
      simp at h
      rw [h.1, h.2.1]
  · refine ⟨s, ?_⟩
    rcases hloop : sendLoop s buff buff.length events with ⟨s3, r3⟩
    rw [hloop] at h
    simp at h
    rw [h.1, h.2.1]

lemma setup_privex_client_inv (s : HandleState) (env : ClientSetupEnv)
    (h : bothInvalid s) : handleInv (setup_privex_client s env).1 := by
  rcases h with ⟨h1, h2⟩
  unfold setup_privex_client
  split_ifs <;> simp [handleInv] <;> omega

lemma setup_privex_client_success_valid (s : HandleState) (env : ClientSetupEnv)
    (h : (setup_privex_client s env).2 = EXIT_SUCCESS) :
    0 ≤ (setup_privex_client s env).1.sockfd ∧
      0 ≤ (setup_privex_client s env).1.epollfd := by
  unfold setup_privex_client at *
  split_ifs at h ⊢ <;>
    simp [EXIT_SUCCESS, EXIT_FAILURE] at h ⊢ <;> omega

lemma setup_privex_server_inv (s : HandleState) (env : ServerSetupEnv)
    (h : bothInvalid s) : handleInv (setup_privex_server s env).1 := by
  rcases h with ⟨h1, h2⟩
  unfold setup_privex_server
  split_ifs <;> simp [handleInv] <;> omega

lemma setup_privex_server_success_valid (s : HandleState) (env : ServerSetupEnv)
    (h : (setup_privex_server s env).2 = EXIT_SUCCESS) :
    0 ≤ (setup_privex_server s env).1.sockfd ∧
      0 ≤ (setup_privex_server s env).1.epollfd := by
  unfold setup_privex_server at *
  split_ifs at h ⊢ <;>
    simp [EXIT_SUCCESS, EXIT_FAILURE] at h ⊢ <;> omega

lemma sendLoop_inv (s : HandleState) (buff : List Nat) (r : Nat)
    (events : List ClientEvent) (h : handleInv s) :
    handleInv (sendLoop s buff r events).1 := by
  rcases sendLoop_fst s buff events r with h1 | h1 <;> rw [h1]
  · exact h
  · exact Or.inr (by constructor <;> norm_num)

lemma echoBody_fst (s : HandleState) (env : EchoEnv) :
    (echoBody s env).1 = s ∨ (echoBody s env).1 = ⟨-1, -1⟩ := by
  unfold echoBody
  rcases env.readRes with _ | bytes
  · simp
  · dsimp only
    split_ifs <;> simp

lemma tell_privex_inv (s : HandleState) (env : ClientSetupEnv) (buff : List Nat)
    (events : List ClientEvent) (h : handleInv s) :
    handleInv (tell_privex s env buff events).1 := by
  unfold tell_privex
  split
  · have hinv : bothInvalid s := by
      rcases h with h | h
      · omega
      · exact h
    split
    · exact setup_privex_client_inv s env hinv
    · have hcode : (setup_privex_client s env).2 = EXIT_SUCCESS := by
        by_contra hc
        simp_all
      have hvalid := setup_privex_client_success_valid s env hcode
      exact sendLoop_inv _ buff buff.length events (Or.inl hvalid)
  · exact sendLoop_inv s buff buff.length events h

lemma echo_data_inv (s : HandleState) (env : EchoEnv) (h : handleInv s) :
    handleInv (echo_data s env).1 := by
  unfold echo_data
  split
  · have hinv : bothInvalid s := by
      rcases h with h | h
      · omega
      · exact h
    split
    · exact setup_privex_server_inv s env.setup hinv
    · have hcode : (setup_privex_server s env.setup).2 = EXIT_SUCCESS := by
        by_contra hc
        simp_all
      have hvalid := setup_privex_server_success_valid s env.setup hcode
      rcases echoBody_fst (setup_privex_server s env.setup).1 env with h1 | h1 <;> rw [h1]
      · exact Or.inl hvalid
      · exact Or.inr (by constructor <;> norm_num)
  · rcases echoBody_fst s env with h1 | h1 <;> rw [h1]
    · exact h
    · exact Or.inr (by constructor <;> norm_num)

lemma dispatch_usage_of_len (argv : List String) (h : argv.length ≠ 3) :
    dispatch argv = .usage := by
  rcases argv with _ | ⟨a, _ | ⟨b, _ | ⟨c, _ | ⟨d, t⟩⟩⟩⟩
  · rfl
  · rfl
  · rfl
  · exact absurd rfl h
  · rfl

lemma dispatch_usage_of_tokens (p a1 a2 : String) (hd : ¬tokenMatches a1 "dump")
    (hl : ¬tokenMatches a1 "load") : dispatch [p, a1, a2] = .usage := by
  unfold tokenMatches at hd hl
  simp only [dispatch]
  rw [if_neg hd, if_neg hl]

lemma dispatch_dump (p a1 a2 : String) (hd : tokenMatches a1 "dump") :
    dispatch [p, a1, a2] = .dumpMode (atoi a2) := by
  unfold tokenMatches at hd
  simp only [dispatch]
  rw [if_pos hd]

lemma dispatch_load (p a1 a2 : String) (hd : ¬tokenMatches a1 "dump")
    (hl : tokenMatches a1 "load") : dispatch [p, a1, a2] = .loadMode (atoi a2) := by
  unfold tokenMatches at hd hl
  simp only [dispatch]
  rw [if_neg hd, if_pos hl]

lemma mainRun_usage (argv : List String) (li : List GetlineResult)
    (de : List DumpEvent) (h : dispatch argv = .usage) :
    mainRun argv li de = (.done EXIT_FAILURE, 0) := by
  unfold mainRun
  rw [h]

lemma digitsVal_no_digit (l : List Char) (acc : Nat)
    (h : ∀ c ∈ l, c.isDigit = false) : digitsVal l acc = acc := by
  cases l with
  | nil => rfl
  | cons c cs => simp [digitsVal, h c (List.mem_cons_self c cs)]

lemma atoiTail_no_digit (l : List Char) (h : ∀ c ∈ l, c.isDigit = false) :
    atoiTail l = 0 := by
  cases l with
  | nil => rfl
  | cons c rest =>
    have hrest : ∀ x ∈ rest, x.isDigit = false :=
      fun x hx => h x (List.mem_cons_of_mem c hx)
    simp only [atoiTail]
    split_ifs <;>
      simp [digitsVal_no_digit rest 0 hrest, digitsVal_no_digit (c :: rest) 0 h]

lemma atoi_no_digit (s : String) (h : ∀ c ∈ s.toList, c.isDigit = false) :
    atoi s = 0 :=
  atoiTail_no_digit _ (fun c hc => h c ((List.dropWhile_sublist _).subset hc))

lemma toUint16_eq_emod (x : Int) : (toUint16 x : Int) = x % 65536 := by
  unfold toUint16
  exact Int.toNat_of_nonneg (Int.emod_nonneg x (by norm_num))

lemma toUint16_lt (x : Int) : toUint16 x < 65536 := by
  unfold toUint16
  have h1 : 0 ≤ x % 65536 := Int.emod_nonneg x (by norm_num)
  have h2 : x % 65536 < 65536 := Int.emod_lt_of_pos x (by norm_num)
  omega

lemma sendLoop_not_stuck (s : HandleState) (buff : List Nat) :
    ∀ (events : List ClientEvent) (r : Nat),
      (∀ e ∈ events, ∀ k, e = ClientEvent.writeOk k → 1 ≤ k) →
      (∀ e ∈ events, e ≠ ClientEvent.spurious) →
      r ≤ events.length →
      (sendLoop s buff r events).2 ≠ SendResult.stuck := by
  intro events
  induction events with
  | nil =>
    intro r _ _ hr
    have : r = 0 := by simpa using hr
    subst this
    simp [sendLoop]
  | cons e rest ih =>
    intro r h1 h2 hr
    cases r with
    | zero => simp [sendLoop]
    | succ m =>
      cases e with
      | waitErr => simp [sendLoop]
      | spurious => exact absurd rfl (h2 _ (List.mem_cons_self _ _))
      | writeErr => simp [sendLoop]
      | writeOk k =>
        have hk : 1 ≤ k := h1 _ (List.mem_cons_self _ _) k rfl
        have hstep : stepRemaining (m + 1) k ≤ rest.length := by
          unfold stepRemaining
          simp only [List.length_cons] at hr
          omega
        have hrec := ih (stepRemaining (m + 1) k)
          (fun x hx kk hkk => h1 x (List.mem_cons_of_mem _ hx) kk hkk)
          (fun x hx => h2 x (List.mem_cons_of_mem _ hx)) hstep
        rcases hloop : sendLoop s buff (stepRemaining (m + 1) k) rest with ⟨s2, r2⟩
        rw [hloop] at hrec
        cases r2 <;> simp [sendLoop, hloop] <;> simp at hrec

lemma sendLoop_zero_writes_stuck (s : HandleState) (buff : List Nat) :
    ∀ (n r : Nat), 0 < r →
      sendLoop s buff r (List.replicate n (ClientEvent.writeOk 0)) =
        (s, SendResult.stuck) := by
  intro n
  induction n with
  | zero =>
    intro r hr
    cases r with
    | zero => omega
    | succ m => simp [sendLoop]
  | succ m ih =>
    intro r hr
    cases r with
    | zero => omega
    | succ p =>
      rw [List.replicate_succ]
      have h1 : stepRemaining (p + 1) 0 = p + 1 := by unfold stepRemaining; simp
      simp [sendLoop, h1, ih (p + 1) (Nat.succ_pos p)]

/-! ### Claims -/

/-- C1: if `tell_privex` returns success, the chunks written to the socket
across all partial writes concatenate to exactly the record — every byte,
in order, exactly once — and the total number of bytes written equals the
record length. -/
theorem tell_privex_success_exact (s : HandleState) (env : ClientSetupEnv)
    (buff : List Nat) (events : List ClientEvent) (s1 : HandleState)
    (chunks : List (List Nat)) (att : Bool)
    (h : tell_privex s env buff events = (s1, .success chunks, att)) :
    chunks.flatten = buff ∧ (chunks.map List.length).sum = buff.length := by
  obtain ⟨s0, hloop⟩ := tell_privex_success_sendLoop s env buff events s1 chunks att h
  have hflat := sendLoop_success_flatten s0 buff events buff.length s1 chunks le_rfl hloop
  rw [Nat.sub_self, List.drop_zero] at hflat
  exact ⟨hflat, by rw [← List.length_flatten, hflat]⟩

/-- Witness for C1: a two-byte record delivered by two partial writes. -/
theorem tell_privex_success_exact_witness :
    ([[10], [20]] : List (List Nat)).flatten = [10, 20] ∧
      (([[10], [20]] : List (List Nat)).map List.length).sum = ([10, 20] : List Nat).length :=
  tell_privex_success_exact ⟨3, 4⟩ ⟨3, true, true, 4, true⟩ [10, 20]
    [.writeOk 1, .writeOk 5] ⟨3, 4⟩ [[10], [20]] false (by decide)

/-- C2: every operation preserves the handle invariant — on return from
`setup_privex_client`, `setup_privex_server` (entered, as in the program,
only when both halves are invalid), `tell_privex` and `echo_data`, the
descriptor pair is jointly valid or jointly invalid; no success or failure
path leaves exactly one half valid. -/
theorem handle_invariant_preserved :
    (∀ (s : HandleState) (env : ClientSetupEnv), bothInvalid s →
      handleInv (setup_privex_client s env).1) ∧
    (∀ (s : HandleState) (env : ServerSetupEnv), bothInvalid s →
      handleInv (setup_privex_server s env).1) ∧
    (∀ (s : HandleState) (env : ClientSetupEnv) (buff : List Nat)
      (events : List ClientEvent), handleInv s →
      handleInv (tell_privex s env buff events).1) ∧
    (∀ (s : HandleState) (env : EchoEnv), handleInv s →
      handleInv (echo_data s env).1) :=
  ⟨setup_privex_client_inv, setup_privex_server_inv, tell_privex_inv, echo_data_inv⟩

/-- Witness for C2: the invariant holds after a failed client setup from
the initial state, after a send over a valid handle, and after an
`echo_data` read error tears the handle down. -/
theorem handle_invariant_preserved_witness :
    bothInvalid initialState ∧
    handleInv (setup_privex_client initialState ⟨-1, true, true, -1, true⟩).1 ∧
    handleInv initialState ∧
    handleInv (tell_privex ⟨3, 4⟩ ⟨3, true, true, 4, true⟩ [7] [.writeOk 1]).1 ∧
    handleInv (echo_data ⟨3, 4⟩ ⟨⟨3, true, true, 4, true⟩, .readErr, true⟩).1 :=
  ⟨by decide,
    handle_invariant_preserved.1 initialState ⟨-1, true, true, -1, true⟩ (by decide),
    by decide,
    handle_invariant_preserved.2.2.1 ⟨3, 4⟩ ⟨3, true, true, 4, true⟩ [7] [.writeOk 1]
      (by decide),
    handle_invariant_preserved.2.2.2 ⟨3, 4⟩ ⟨⟨3, true, true, 4, true⟩, .readErr, true⟩
      (by decide)⟩

/-- C3 (code evaluation at the failing input): in server mode the dump
loop never reaches the lazy setup.  Started from the initial state (both
descriptors −1), `dump`'s first `epoll_wait` runs on the invalid epoll
descriptor and fails, so `dump` returns `EXIT_FAILURE` with `echo_data`
never invoked — for every event trace.  Yet the lazy-setup path inside
`echo_data` (privexctl.c lines 216-221) does establish the endpoint when
it is reached: called directly from the initial state with a succeeding
server setup, it returns with both descriptors valid. -/
theorem dump_fails_before_lazy_setup :
    (∀ events : List DumpEvent,
      dumpLoop initialState events = (initialState, .done EXIT_FAILURE, 0)) ∧
    (echo_data initialState ⟨⟨3, true, true, 4, true⟩, .readOk [], true⟩).1 = ⟨3, 4⟩ := by
  constructor
  · intro events
    rw [dumpLoop.eq_def]
    simp [initialState]
  · decide

/-- C4 (code evaluation at the failing input): `echo_data` calls
`fwrite(readBuff, numRead, 1, stdout)` and compares the byte count
`numRead` with `fwrite`'s item count.  A read of 2 bytes that stdout
accepts in full makes `fwrite` return 1 item, so the code treats the
fully successful write as a short write: it tears down the handle and
fails.  Only a 1-byte read that is fully accepted passes the check — and
even then the function falls off the end with an unspecified status. -/
theorem echo_full_write_is_error :
    echo_data ⟨3, 4⟩ ⟨⟨3, true, true, 4, true⟩, .readOk [72, 105], true⟩ =
      (⟨-1, -1⟩, .failure, []) ∧
    echo_data ⟨3, 4⟩ ⟨⟨3, true, true, 4, true⟩, .readOk [72], true⟩ =
      (⟨3, 4⟩, .unspecified, [72]) := by
  decide

/-- C5 (code evaluation at the failing input): a socket read returning 0
bytes forwards nothing and leaves the handle valid, but `echo_data`
reaches the end of the function without a `return` statement, so the
status it reports is unspecified rather than `EXIT_SUCCESS`; the dump
loop's `echo_data() != EXIT_SUCCESS` test then has an unspecified
outcome instead of being guaranteed to continue. -/
theorem echo_zero_read_unspecified :
    (∀ (env : ServerSetupEnv) (w : Bool),
      echo_data ⟨3, 4⟩ ⟨env, .readOk [], w⟩ = (⟨3, 4⟩, .unspecified, [])) ∧
    dumpLoop ⟨3, 4⟩ [.ready ⟨⟨3, true, true, 4, true⟩, .readOk [], true⟩] =
      (⟨3, 4⟩, .undef, 1) := by
  constructor
  · intro env w
    rfl
  · rfl

/-- C6: in client mode an input stream that yields no records never
triggers a connection attempt — `load` makes no setup call, leaves the
state untouched and returns success; and, with an invalid handle, the
first record does trigger a connection attempt inside `tell_privex`
(lazy connect). -/
theorem load_empty_no_connect :
    (∀ (s : HandleState) (input : List GetlineResult),
      (∀ (bytes : List Nat) (env : RecordEnv), GetlineResult.record bytes env ∉ input) →
      load s input = (s, .done EXIT_SUCCESS, 0)) ∧
    (∀ (s : HandleState) (env : ClientSetupEnv) (bytes : List Nat)
      (events : List ClientEvent), bothInvalid s →
      (tell_privex s env bytes events).2.2 = true) := by
  constructor
  · intro s input h
    match input with
    | [] => rfl
    | .endEof :: _ => rfl
    | .endError :: _ => rfl
    | .record bytes env :: rest => exact absurd (List.mem_cons_self _ _) (h bytes env)
  · intro s env bytes events h
    unfold tell_privex
    rw [if_pos (Or.inl h.1)]
    split <;> rfl

/-- Witness for C6: an input consisting only of end-of-file, and a first
record from the initial (disconnected) state. -/
theorem load_empty_no_connect_witness :
    load ⟨5, 6⟩ [.endEof] = (⟨5, 6⟩, .done EXIT_SUCCESS, 0) ∧
    (tell_privex initialState ⟨3, true, true, 4, true⟩ [7] [.writeOk 1]).2.2 = true :=
  ⟨load_empty_no_connect.1 ⟨5, 6⟩ [.endEof] (by intro bytes env; simp),
    load_empty_no_connect.2 initialState ⟨3, true, true, 4, true⟩ [7] [.writeOk 1]
      (by decide)⟩

/-- C7 counterexample: the mode token "dumpster" is neither "dump" nor
"load" and the argument count is exactly 3, yet `main` selects dump mode
instead of reporting a usage error, because `strncasecmp(argv[1], "dump", 4)`
compares only the first four characters. -/
theorem mode_token_counterexample :
    ("dumpster" ≠ "dump" ∧ "dumpster" ≠ "load") ∧
    (["./privexctl", "dumpster", "80"] : List String).length = 3 ∧
    dispatch ["./privexctl", "dumpster", "80"] = .dumpMode 80 ∧
    Invocation.dumpMode 80 ≠ .usage := by
  refine ⟨⟨by decide, by decide⟩, rfl, ?_, by decide⟩
  decide

/-- C7 (amended): an invocation is a usage error — usage reported, exit
status `EXIT_FAILURE` ≠ 0, neither mode loop run and no network
operation performed — exactly when the argument count is not 3 or the
mode token's first four characters do not case-insensitively equal
"dump" or "load"; a token whose first four characters case-insensitively
equal "dump" selects dump mode (tried first), otherwise one matching
"load" selects load mode, each with port `atoi(argv[2])`. -/
theorem usage_error_amended :
    (∀ argv : List String, argv.length ≠ 3 → dispatch argv = .usage) ∧
    (∀ p a1 a2 : String, ¬tokenMatches a1 "dump" → ¬tokenMatches a1 "load" →
      dispatch [p, a1, a2] = .usage) ∧
    (∀ p a1 a2 : String, tokenMatches a1 "dump" →
      dispatch [p, a1, a2] = .dumpMode (atoi a2)) ∧
    (∀ p a1 a2 : String, ¬tokenMatches a1 "dump" → tokenMatches a1 "load" →
      dispatch [p, a1, a2] = .loadMode (atoi a2)) ∧
    (∀ (argv : List String) (li : List GetlineResult) (de : List DumpEvent),
      dispatch argv = .usage →
      mainRun argv li de = (.done EXIT_FAILURE, 0) ∧ EXIT_FAILURE ≠ 0) :=
  ⟨dispatch_usage_of_len, dispatch_usage_of_tokens, dispatch_dump, dispatch_load,
    fun argv li de h => ⟨mainRun_usage argv li de h, by decide⟩⟩

/-- Witness for C7 (amended): a two-argument invocation, a non-matching
token, a case-variant dump token, a load token with a longer tail, and
the usage outcome of `main`. -/
theorem usage_error_amended_witness :
    dispatch ["./privexctl", "dump"] = .usage ∧
    dispatch ["./privexctl", "dumq", "80"] = .usage ∧
    dispatch ["./privexctl", "DUMP", "80"] = .dumpMode (atoi "80") ∧
    dispatch ["./privexctl", "LoAdEr", "80"] = .loadMode (atoi "80") ∧
    (mainRun ["./privexctl", "dumq", "80"] [] [] = (.done EXIT_FAILURE, 0) ∧
      EXIT_FAILURE ≠ 0) :=
  ⟨usage_error_amended.1 ["./privexctl", "dump"] (by decide),
    usage_error_amended.2.1 "./privexctl" "dumq" "80" (by decide) (by decide),
    usage_error_amended.2.2.1 "./privexctl" "DUMP" "80" (by decide),
    usage_error_amended.2.2.2.1 "./privexctl" "LoAdEr" "80" (by decide) (by decide),
    usage_error_amended.2.2.2.2 ["./privexctl", "dumq", "80"] [] []
      (usage_error_amended.2.1 "./privexctl" "dumq" "80" (by decide) (by decide))⟩

/-- C8: the port argument is converted with `atoi` — a string with no
digits yields 0 — and the `(uint16_t)` cast applied before `htons`
reduces the value modulo 2^16; `main` never validates the port: every
port string still selects the mode. -/
theorem port_conversion_unchecked :
    (∀ s : String, (∀ c ∈ s.toList, c.isDigit = false) →
      atoi s = 0 ∧ effectivePort (atoi s) = 0) ∧
    (∀ x : Int, (effectivePort x : Int) = x % 65536 ∧ effectivePort x < 65536) ∧
    (∀ p a2 : String, dispatch [p, "dump", a2] = .dumpMode (atoi a2) ∧
      dispatch [p, "load", a2] = .loadMode (atoi a2)) := by
  refine ⟨fun s h => ?_, fun x => ⟨toUint16_eq_emod x, toUint16_lt x⟩,
    fun p a2 => ⟨?_, ?_⟩⟩
  · have h0 := atoi_no_digit s h
    exact ⟨h0, by rw [h0]; rfl⟩
  · exact dispatch_dump p "dump" a2 (by decide)
  · exact dispatch_load p "load" a2 (by decide) (by decide)

/-- Witness for C8: a letters-only port string, an out-of-range port
value, and a non-numeric port string that still selects each mode. -/
theorem port_conversion_unchecked_witness :
    (atoi "xyzzy" = 0 ∧ effectivePort (atoi "xyzzy") = 0) ∧
    ((effectivePort 65616 : Int) = 65616 % 65536 ∧ effectivePort 65616 < 65536) ∧
    (dispatch ["p", "dump", "notaport"] = .dumpMode (atoi "notaport") ∧
      dispatch ["p", "load", "notaport"] = .loadMode (atoi "notaport")) :=
  ⟨port_conversion_unchecked.1 "xyzzy" (by decide),
    port_conversion_unchecked.2.1 65616,
    port_conversion_unchecked.2.2 "p" "notaport"⟩

/-- C9: a write accepting 0 bytes leaves the remaining count unchanged;
under the precondition that every write in the trace accepts at least one
byte (and every wait reports readiness), a trace at least as long as the
record suffices for the send loop to finish — it is never still spinning;
and without that precondition the loop does not terminate: with any
number of zero-byte writes it is still stuck. -/
theorem send_loop_termination :
    (∀ r : Nat, stepRemaining r 0 = r) ∧
    (∀ (s : HandleState) (buff : List Nat) (events : List ClientEvent) (r : Nat),
      (∀ e ∈ events, ∀ k, e = ClientEvent.writeOk k → 1 ≤ k) →
      (∀ e ∈ events, e ≠ ClientEvent.spurious) →
      r ≤ events.length →
      (sendLoop s buff r events).2 ≠ SendResult.stuck) ∧
    (∀ (s : HandleState) (buff : List Nat) (n r : Nat), 0 < r →
      sendLoop s buff r (List.replicate n (ClientEvent.writeOk 0)) =
        (s, SendResult.stuck)) :=
  ⟨fun r => by unfold stepRemaining; simp,
    fun s buff events r h1 h2 hr => sendLoop_not_stuck s buff events r h1 h2 hr,
    fun s buff n r hr => sendLoop_zero_writes_stuck s buff n r hr⟩

/-- Witness for C9: a 2-byte record against a trace of two 1-byte writes,
and the same record stuck after three zero-byte writes. -/
theorem send_loop_termination_witness :
    stepRemaining 5 0 = 5 ∧
    (sendLoop ⟨3, 4⟩ [10, 20] 2 [.writeOk 1, .writeOk 1]).2 ≠ SendResult.stuck ∧
    sendLoop ⟨3, 4⟩ [10, 20] 2 (List.replicate 3 (ClientEvent.writeOk 0)) =
      (⟨3, 4⟩, SendResult.stuck) :=
  ⟨send_loop_termination.1 5,
    send_loop_termination.2.1 ⟨3, 4⟩ [10, 20] [.writeOk 1, .writeOk 1] 2
      (by
        intro e he k hk
        rcases List.mem_cons.mp he with rfl | he2
        · injection hk with h
          omega
        · rcases List.mem_singleton.mp he2 with rfl
          injection hk with h
          omega)
      (by decide) (by decide),
    send_loop_termination.2.2 ⟨3, 4⟩ [10, 20] 3 2 (by decide)⟩

/-- C10: `load` cannot tell why `getline` stopped — a run over records
followed by an input read error returns exactly what the same run
followed by end-of-file returns, and in particular an input read error
with no prior send failure yields success. -/
theorem load_end_cause_invisible :
    (∀ (s : HandleState) (recs : List GetlineResult),
      load s (recs ++ [GetlineResult.endEof]) =
        load s (recs ++ [GetlineResult.endError])) ∧
    (∀ s : HandleState, load s [GetlineResult.endError] = (s, .done EXIT_SUCCESS, 0)) := by
  constructor
  · intro s recs
    induction recs generalizing s with
    | nil => rfl
    | cons g rest ih =>
      cases g with
      | record bytes env =>
        simp only [List.cons_append, load]
        rcases htell : tell_privex s env.setup bytes env.events with ⟨s1, r1, att⟩
        cases r1 <;> simp [ih s1]
      | endEof => rfl
      | endError => rfl
  · intro s
    rfl

end Privexctl
